import Mathlib

/-!
Shallow embedding of the LogicalAssert dispatch engine
(`src/lib/LogicalAssert.ts`, the `with` method) and its DSL schema
evaluator (`src/lib/dsl.ts`, `evaluateDslCondition`).

Modelling conventions:
* JavaScript runtime values are modelled by `JSVal`.  Numbers are modelled
  by the integer fragment of JS doubles (`Int`); none of the verified
  properties depend on non-integer numerics.  Objects are modelled as
  records of their own properties (prototype-chain lookup of the host
  runtime is treated as out of scope: the spec treats host equality and
  `typeof` primitives as external collaborators).  Function values
  occurring as *subjects* are opaque (identified by a tag); handler
  functions are genuine Lean functions.
* Error instances (`new Error(msg)`) are `JSVal.err msg`; their `message`
  property is an own non-enumerable property, so it is visible to the
  `in` operator but not to `Object.entries`.
* The rule set handed to `dispatch` is the ordered association list of
  `(key, handler)` pairs, in the order produced by `Object.keys`.
* All functions are total: "never raises" in the source corresponds to
  the functions being plain total Lean definitions, and a thrown
  `TypeError` (calling a non-callable handler) is the explicit result
  `DResult.typeError`.
-/

namespace LogicalAssert

/-- A non-empty all-digit character list read as a natural number;
`none` otherwise. -/
def digitsToNat : List Char → Option Nat
  | [] => none
  | cs =>
    if cs.all Char.isDigit then
      some (cs.foldl (fun acc c => 10 * acc + (c.toNat - 48)) 0)
    else none

/-- A JavaScript runtime value, as far as the dispatch engine observes it. -/
inductive JSVal where
  | num (n : Int)
  | str (s : String)
  | bool (b : Bool)
  | null
  | undefinedV
  | obj (fields : List (String × JSVal))
  | arr (elems : List JSVal)
  | err (message : String)
  | func (id : Nat)

namespace JSVal

/-- The JS `typeof` operator. -/
def typeofName : JSVal → String
  | .num _ => "number"
  | .str _ => "string"
  | .bool _ => "boolean"
  | .null => "object"
  | .undefinedV => "undefined"
  | .obj _ => "object"
  | .arr _ => "object"
  | .err _ => "object"
  | .func _ => "function"

/-- `Array.isArray`. -/
def isArr : JSVal → Bool
  | .arr _ => true
  | _ => false

/-- `value === null`. -/
def isNullV : JSVal → Bool
  | .null => true
  | _ => false

/-- `value instanceof Error`. -/
def isErr : JSVal → Bool
  | .err _ => true
  | _ => false

/-- JS loose equality with null (`x == null`): true exactly for `null`
and `undefined`. -/
def isLooseNull : JSVal → Bool
  | .null => true
  | .undefinedV => true
  | _ => false

/-- JS truthiness of a value. -/
def truthy : JSVal → Bool
  | .num n => n != 0
  | .str s => s != ""
  | .bool b => b
  | .null => false
  | .undefinedV => false
  | _ => true

/-- JS strict equality (`===`) between an arbitrary value and a string
(the only strict comparisons the engine performs compare against string
keys or tags). -/
def strictEqStr (value : JSVal) (key : String) : Bool :=
  match value with
  | .str s => s == key
  | _ => false

/-- The `in` operator restricted to the object-typed values the DSL
evaluator can reach (`typeof value === 'object' && value !== null`).
For plain objects this is own-property membership; for arrays, indices
and `length`; for errors, the own non-enumerable `message`. -/
def hasProp : JSVal → String → Bool
  | .obj fields, p => (List.lookup p fields).isSome
  | .arr xs, p =>
      p == "length" ||
        (match LogicalAssert.digitsToNat p.toList with
          | some i => decide (i < xs.length)
          | none => false)
  | .err _, p => p == "message"
  | _, _ => false

/-- Property read `value[prop]` on the same values; a missing property
reads as `undefined`. -/
def getProp : JSVal → String → JSVal
  | .obj fields, p => (List.lookup p fields).getD .undefinedV
  | .arr xs, p =>
      if p == "length" then .num xs.length
      else
        match LogicalAssert.digitsToNat p.toList with
        | some i => xs.getD i .undefinedV
        | none => .undefinedV
  | .err m, p => if p == "message" then .str m else .undefinedV
  | _, _ => .undefinedV

/-- `Object.entries` of a value: the own enumerable string-keyed
properties in key order.  An `Error`'s `message` is non-enumerable, so
errors contribute no entries; primitives have none. -/
def ownEntries : JSVal → List (String × JSVal)
  | .obj fields => fields
  | .arr xs => List.zip ((List.range xs.length).map toString) xs
  | _ => []

end JSVal

/-- `Number(key)` followed by the `isNaN` test of the source, on the
decimal-integer fragment of JS number syntax that rule keys use:
`none` plays the role of `NaN`.  Mirrors `Number`'s treatment of
surrounding whitespace, an optional sign, and the empty string
(which converts to `0`). -/
def jsNumber (s : String) : Option Int :=
  let t := ((s.toList.dropWhile Char.isWhitespace).reverse.dropWhile
    Char.isWhitespace).reverse
  match t with
  | [] => some 0
  | '-' :: ds => (digitsToNat ds).map (fun n => -(n : Int))
  | '+' :: ds => (digitsToNat ds).map (fun n => (n : Int))
  | ds => (digitsToNat ds).map (fun n => (n : Int))

/-- One `(prop, typeOrCheck)` entry of a schema, evaluated against a
composite `value`; the body of the `every` callback in
`evaluateDslCondition` (src/lib/dsl.ts lines 78-113). -/
def checkSchemaEntry (value : JSVal) (prop : String) (typeOrCheck : JSVal) : Bool :=
  if !(value.hasProp prop) then
    -- `if (!(prop in value)) return typeOrCheck === 'undefined';`
    typeOrCheck.strictEqStr "undefined"
  else
    let propValue := value.getProp prop
    match typeOrCheck with
    | .bool true =>
      -- Case 1: `typeOrCheck === true` ⇒ `propValue != null`
      !propValue.isLooseNull
    | .str t =>
      -- Case 2: `typeof typeOrCheck === 'string'`
      if t == "undefined" then propValue.typeofName == "undefined"
      else if propValue.isLooseNull then false
      else if t == "array" then propValue.isArr
      else propValue.typeofName == t
    | _ =>
      -- `return false;` for any other (malformed) tag
      false

/-- `evaluateDslCondition(value, schema)` from src/lib/dsl.ts: fails
closed on non-objects and null, otherwise requires every schema entry
to hold (`Object.entries(schema).every(...)`). -/
def evaluateDslCondition (value : JSVal) (schema : JSVal) : Bool :=
  if value.typeofName != "object" || value.isNullV then false
  else (schema.ownEntries).all (fun pt => checkSchemaEntry value pt.1 pt.2)

/-- One rule value of the handlers object.  The dispatch loop
discriminates handler values at run time; the three shapes it
distinguishes are:
* `plain f` — a callable (`typeof handler === 'function'`);
* `conditional condition exec` — a non-null, non-array object with a
  `condition` own property; `exec` is its `exec` property when that is a
  function, and `none` when `exec` is absent or not callable;
* `other v` — any other runtime value, skipped by the scan (the value is
  kept for the truthiness test of the `Error` preemption). -/
inductive Handler where
  | plain (f : JSVal → JSVal)
  | conditional (condition : JSVal) (exec : Option (JSVal → JSVal))
  | other (v : JSVal)

/-- The diagnostic payload of the assertion raised on a failed dispatch
(src/lib/LogicalAssert.ts lines 181-190): the non-`unknown` rule keys
(joined with `", "` in the source message), the subject's template-string
representation, its `typeof`, and the call-site line. -/
structure NoMatchError where
  validValues : List String
  subjectRepr : String
  subjectTypeof : String
  callSite : String

/-- Result of one dispatch call: a returned value, the no-match
assertion failure, or the `TypeError` of calling a non-callable
`Error` handler. -/
inductive DResult where
  | ok (v : JSVal)
  | noMatch (e : NoMatchError)
  | typeError

/-- JS truthiness of a handler value (functions and objects are truthy). -/
def handlerTruthy : Handler → Bool
  | .plain _ => true
  | .conditional _ _ => true
  | .other v => v.truthy

/-- Calling a handler value as a function: a genuine call for a callable,
a thrown `TypeError` otherwise. -/
def callHandler (h : Handler) (value : JSVal) : DResult :=
  match h with
  | .plain f => .ok (f value)
  | _ => .typeError

/-- `condition`-met computation of a conditional handler
(src/lib/LogicalAssert.ts lines 128-138): a boolean condition is used
directly; a value with `typeof condition === 'object' &&
!Array.isArray(condition) && condition !== null` (a plain object or an
error object) is delegated to the schema evaluator; every other
condition leaves `isMatch` false. -/
def condMet (value : JSVal) (cond : JSVal) : Bool :=
  match cond with
  | .bool b => b
  | .obj fs => evaluateDslCondition value (.obj fs)
  | .err m => evaluateDslCondition value (.err m)
  | _ => false

/-- Plain-handler matching for one rule key
(src/lib/LogicalAssert.ts lines 152-174): first `typeof value === key`;
otherwise the value-equality chain (numeric keys for number subjects,
`"true"`/`"false"` keys for boolean subjects, the `"null"` key for the
null subject, and finally `value === key`). -/
def plainMatch (value : JSVal) (key : String) : Bool :=
  if value.typeofName == key then true
  else
    match value with
    | .num n =>
      -- `typeof value === 'number' && !isNaN(Number(key))`
      match jsNumber key with
      | some m => m == n          -- `Number(key) === value`
      | none => JSVal.strictEqStr (.num n) key   -- falls to `value === key`
    | .bool b =>
      if key == "true" || key == "false" then b == (key == "true")
      else JSVal.strictEqStr (.bool b) key
    | .null => key == "null"      -- `value === null && key === 'null'`
    | v => v.strictEqStr key      -- `value === key`

/-- The ordered scan over the rule list
(src/lib/LogicalAssert.ts lines 121-175): skip `unknown`; a conditional
handler fires when its condition is met (running `exec` when present,
else yielding `true`); a plain handler fires when `plainMatch` holds;
any other handler value is skipped.  `none` means the loop fell through. -/
def scan (value : JSVal) : List (String × Handler) → Option DResult
  | [] => none
  | (key, handler) :: rest =>
    if key == "unknown" then scan value rest
    else
      match handler with
      | .conditional cond exec =>
        if condMet value cond then
          some (match exec with
            | some f => .ok (f value)
            | none => .ok (.bool true))
        else scan value rest
      | .plain f =>
        if plainMatch value key then some (.ok (f value)) else scan value rest
      | .other _ => scan value rest

/-- The `Error` preemption (src/lib/LogicalAssert.ts lines 114-117):
`if (handlers.Error && value instanceof Error) return handlers.Error(value)`. -/
def errorPreempt (value : JSVal) (handlers : List (String × Handler)) : Option DResult :=
  match List.lookup "Error" handlers with
  | some h => if handlerTruthy h && value.isErr then some (callHandler h value) else none
  | none => none

/-- The non-`unknown` rule keys, as assembled for the failure message
(`Object.keys(handlers).filter(k => k !== 'unknown')`). -/
def validKeys (handlers : List (String × Handler)) : List String :=
  (handlers.map Prod.fst).filter (fun k => k != "unknown")

/-- Template-string coercion `${value}` as the failure message uses it.
Arrays stringify as their elements joined with `","` (null and undefined
elements as the empty string); plain objects as `"[object Object]"`;
an error as `Error.prototype.toString`; a function's source text is
opaque and modelled by a fixed placeholder. -/
def jsToString : JSVal → String
  | .num n => toString n
  | .str s => s
  | .bool b => if b then "true" else "false"
  | .null => "null"
  | .undefinedV => "undefined"
  | .obj _ => "[object Object]"
  | .arr xs => String.intercalate "," (jsToStringElems xs)
  | .err m => if m == "" then "Error" else "Error: " ++ m
  | .func _ => "function"
where
  /-- `Array.prototype.join` stringification of the elements. -/
  jsToStringElems : List JSVal → List String
  | [] => []
  | v :: rest =>
    (match v with
      | .null => ""
      | .undefinedV => ""
      | w => jsToString w) :: jsToStringElems rest

/-- The `with` method (src/lib/LogicalAssert.ts lines 109-192): `Error`
preemption, then the ordered scan, then the `unknown` fallback (only
when `unknown` exists and is callable), and finally the failed
assertion carrying the diagnostic fields.  `callSite` stands for the
opaque line the source-location collaborator supplies. -/
def dispatch (value : JSVal) (handlers : List (String × Handler))
    (callSite : String) : DResult :=
  match errorPreempt value handlers with
  | some r => r
  | none =>
    match scan value handlers with
    | some r => r
    | none =>
      match List.lookup "unknown" handlers with
      | some (.plain f) => .ok (f value)
      | _ =>
        .noMatch
          { validValues := validKeys handlers
            subjectRepr := jsToString value
            subjectTypeof := value.typeofName
            callSite := callSite }

end LogicalAssert

/-! ## Spec-side definitions

These definitions restate, in the spec's own words, the plain-handler
matching clauses and the conditional-tag classification, to be compared
with the source-derived definitions above. -/

namespace LogicalAssert

/-- Spec clause (a): the subject's runtime type name equals the rule name. -/
def specClauseA (value : JSVal) (key : String) : Bool :=
  value.typeofName == key

/-- Spec clause (b): the subject is a number and the rule name parses as
a number numerically equal to the subject. -/
def specClauseB (value : JSVal) (key : String) : Bool :=
  match value with
  | .num n => jsNumber key == some n
  | _ => false

/-- Spec clause (c): the subject is a boolean and the rule name is the
literal text `"true"`/`"false"` matching the subject's boolean value. -/
def specClauseC (value : JSVal) (key : String) : Bool :=
  match value with
  | .bool b => (key == "true" && b) || (key == "false" && !b)
  | _ => false

/-- Spec clause (d): the subject is null and the rule name is `"null"`. -/
def specClauseD (value : JSVal) (key : String) : Bool :=
  value.isNullV && key == "null"

/-- Spec clause (e): the subject is strictly equal to the rule name. -/
def specClauseE (value : JSVal) (key : String) : Bool :=
  value.strictEqStr key

/-- The spec's plain-handler match: the five clauses in priority order
(a), (b), (c), (d), (e), first satisfied clause wins. -/
def specPlainMatch (value : JSVal) (key : String) : Bool :=
  specClauseA value key || specClauseB value key || specClauseC value key ||
    specClauseD value key || specClauseE value key

/-- A conditional-handler condition that is neither a boolean nor a
non-null, non-array object (the shapes C10 talks about). -/
def otherCondition (c : JSVal) : Prop :=
  c.typeofName ≠ "boolean" ∧ (c.typeofName = "object" → c = .null ∨ c.isArr = true)

end LogicalAssert

/-! ## Theorems -/

namespace LogicalAssert

/-- Helper: the source's plain-handler chain computes exactly the
spec's ordered disjunction of clauses. -/
theorem plainMatch_eq_specPlainMatch (value : JSVal) (key : String) :
    plainMatch value key = specPlainMatch value key := by
  cases value with
  | num n =>
    simp only [plainMatch, specPlainMatch, specClauseA, specClauseB, specClauseC,
      specClauseD, specClauseE, JSVal.typeofName, JSVal.isNullV, JSVal.strictEqStr]
    by_cases h : ("number" : String) = key
    · simp [h]
    · cases hj : jsNumber key with
      | none => simp [h, hj]
      | some m => simp [h, hj]
  | str s =>
    simp only [plainMatch, specPlainMatch, specClauseA, specClauseB, specClauseC,
      specClauseD, specClauseE, JSVal.typeofName, JSVal.isNullV, JSVal.strictEqStr]
    by_cases h : ("string" : String) = key
    · simp [h]
    · simp [h]
  | bool b =>
    simp only [plainMatch, specPlainMatch, specClauseA, specClauseB, specClauseC,
      specClauseD, specClauseE, JSVal.typeofName, JSVal.isNullV, JSVal.strictEqStr]
    by_cases h : ("boolean" : String) = key
    · simp [h]
    · by_cases ht : key = "true"
      · simp [h, ht]
      · by_cases hf : key = "false"
        · cases b <;> simp [h, ht, hf]
        · simp [h, ht, hf]
  | null =>
    simp only [plainMatch, specPlainMatch, specClauseA, specClauseB, specClauseC,
      specClauseD, specClauseE, JSVal.typeofName, JSVal.isNullV, JSVal.strictEqStr]
    by_cases h : ("object" : String) = key
    · simp [h]
    · simp [h]
  | undefinedV =>
    simp only [plainMatch, specPlainMatch, specClauseA, specClauseB, specClauseC,
      specClauseD, specClauseE, JSVal.typeofName, JSVal.isNullV, JSVal.strictEqStr]
    by_cases h : ("undefined" : String) = key
    · simp [h]
    · simp [h]
  | obj fields =>
    simp only [plainMatch, specPlainMatch, specClauseA, specClauseB, specClauseC,
      specClauseD, specClauseE, JSVal.typeofName, JSVal.isNullV, JSVal.strictEqStr]
    by_cases h : ("object" : String) = key
    · simp [h]
    · simp [h]
  | arr xs =>
    simp only [plainMatch, specPlainMatch, specClauseA, specClauseB, specClauseC,
      specClauseD, specClauseE, JSVal.typeofName, JSVal.isNullV, JSVal.strictEqStr]
    by_cases h : ("object" : String) = key
    · simp [h]
    · simp [h]
  | err m =>
    simp only [plainMatch, specPlainMatch, specClauseA, specClauseB, specClauseC,
      specClauseD, specClauseE, JSVal.typeofName, JSVal.isNullV, JSVal.strictEqStr]
    by_cases h : ("object" : String) = key
    · simp [h]
    · simp [h]
  | func i =>
    simp only [plainMatch, specPlainMatch, specClauseA, specClauseB, specClauseC,
      specClauseD, specClauseE, JSVal.typeofName, JSVal.isNullV, JSVal.strictEqStr]
    by_cases h : ("function" : String) = key
    · simp [h]
    · simp [h]

/-- C1: a plain handler matches exactly when one of the five spec clauses
(type name, numeric key, boolean key, null key, strict equality) holds,
tested in that priority order; on a match the handler is invoked with the
subject and its result returned, and no remaining rule is evaluated. -/
theorem claim_C1 (value : JSVal) (key : String) (f : JSVal → JSVal)
    (rest : List (String × Handler)) (hk : key ≠ "unknown") :
    plainMatch value key = specPlainMatch value key ∧
      scan value ((key, .plain f) :: rest) =
        (if plainMatch value key then some (.ok (f value)) else scan value rest) := by
  refine ⟨plainMatch_eq_specPlainMatch value key, ?_⟩
  simp [scan, hk]

/-- C1 witness: clause (b) fires for subject `42` against the rule key
`"42"` and the scan returns that handler's result. -/
theorem claim_C1_witness :
    (("42" : String) ≠ "unknown") ∧
      (plainMatch (.num 42) "42" = specPlainMatch (.num 42) "42" ∧
        scan (.num 42) [("42", .plain (fun _ => .str "hit")), ("x", .plain (fun _ => .str "miss"))] =
          (if plainMatch (.num 42) "42" then some (.ok (.str "hit"))
            else scan (.num 42) [("x", .plain (fun _ => .str "miss"))])) :=
  ⟨by decide, claim_C1 (.num 42) "42" (fun _ => .str "hit")
    [("x", .plain (fun _ => .str "miss"))] (by decide)⟩

/-- C2: a conditional handler is gated by its condition (boolean used
directly, object schema delegated to the evaluator); when met, `exec` is
run when present (else `true` is returned), and when not met the scan
moves to the next rule without retrying the entry as a plain handler.
Concretely, subject `42` against (conditional `false`, plain `"42"`,
`unknown`) in that order dispatches to the plain `"42"` handler. -/
theorem claim_C2 (value : JSVal) (key : String) (cond : JSVal)
    (exec : Option (JSVal → JSVal)) (rest : List (String × Handler)) (b : Bool)
    (s : List (String × JSVal)) (g f42 u : JSVal → JSVal) (cs : String)
    (hk : key ≠ "unknown") :
    scan value ((key, .conditional cond exec) :: rest) =
      (if condMet value cond then
          some (match exec with
            | some f => .ok (f value)
            | none => .ok (.bool true))
        else scan value rest) ∧
    condMet value (.bool b) = b ∧
    condMet value (.obj s) = evaluateDslCondition value (.obj s) ∧
    dispatch (.num 42)
        [("cond", .conditional (.bool false) (some g)),
         ("42", .plain f42),
         ("unknown", .plain u)] cs = .ok (f42 (.num 42)) := by
  refine ⟨by simp [scan, hk], rfl, rfl, rfl⟩

/-- C2 witness: the scan equation at a concrete met schema condition,
plus the concrete rule-order scenario. -/
theorem claim_C2_witness :
    (("match" : String) ≠ "unknown") ∧
      (scan (.obj [("name", .str "Bob"), ("age", .num 30)])
          [("match",
            .conditional (.obj [("name", .str "string"), ("age", .str "number")])
              (some (fun _ => .str "matched")))] =
        (if condMet (.obj [("name", .str "Bob"), ("age", .num 30)])
              (.obj [("name", .str "string"), ("age", .str "number")]) then
            some (match (some (fun _ => JSVal.str "matched") : Option (JSVal → JSVal)) with
              | some f => DResult.ok (f (.obj [("name", .str "Bob"), ("age", .num 30)]))
              | none => DResult.ok (.bool true))
          else scan (.obj [("name", .str "Bob"), ("age", .num 30)]) []) ∧
        condMet (.obj [("name", .str "Bob"), ("age", .num 30)]) (.bool true) = true ∧
        condMet (.obj [("name", .str "Bob"), ("age", .num 30)])
            (.obj [("name", .str "string")]) =
          evaluateDslCondition (.obj [("name", .str "Bob"), ("age", .num 30)])
            (.obj [("name", .str "string")]) ∧
        dispatch (.num 42)
            [("cond", .conditional (.bool false) (some (fun _ => .str "no"))),
             ("42", .plain (fun _ => .str "yes")),
             ("unknown", .plain (fun _ => .str "fallback"))] "cs" =
          .ok (.str "yes")) :=
  ⟨by decide,
    claim_C2 (.obj [("name", .str "Bob"), ("age", .num 30)]) "match"
      (.obj [("name", .str "string"), ("age", .str "number")])
      (some (fun _ => .str "matched")) [] true [("name", .str "string")]
      (fun _ => .str "no") (fun _ => .str "yes") (fun _ => .str "fallback") "cs"
      (by decide)⟩

/-- C3: when the rule set has a callable `Error` rule and the subject is
an `Error` instance, dispatch returns that handler's result on the
subject, whatever the other rules are: the preemption step already
produces the result before the ordinary scan. -/
theorem claim_C3 (value : JSVal) (handlers : List (String × Handler))
    (cs : String) (f : JSVal → JSVal) (hv : value.isErr = true)
    (hE : List.lookup "Error" handlers = some (.plain f)) :
    errorPreempt value handlers = some (.ok (f value)) ∧
      dispatch value handlers cs = .ok (f value) := by
  have hp : errorPreempt value handlers = some (.ok (f value)) := by
    unfold errorPreempt
    rw [hE]
    simp [handlerTruthy, hv, callHandler]
  refine ⟨hp, ?_⟩
  unfold dispatch
  rw [hp]

/-- C3 witness: an error subject against a rule set whose first rule
(`"object"`) would match the subject's runtime type in the ordinary
scan; the `Error` handler still wins. -/
theorem claim_C3_witness :
    (JSVal.isErr (.err "boom") = true) ∧
      (List.lookup "Error"
          [("object", Handler.plain (fun _ => JSVal.str "type-match")),
           ("Error", Handler.plain (fun _ => JSVal.str "handled"))] =
        some (.plain (fun _ => JSVal.str "handled"))) ∧
      (errorPreempt (.err "boom")
          [("object", .plain (fun _ => .str "type-match")),
           ("Error", .plain (fun _ => .str "handled"))] =
            some (.ok (.str "handled")) ∧
        dispatch (.err "boom")
            [("object", .plain (fun _ => .str "type-match")),
             ("Error", .plain (fun _ => .str "handled"))] "cs" =
          .ok (.str "handled")) :=
  ⟨rfl, rfl,
    claim_C3 (.err "boom")
      [("object", .plain (fun _ => .str "type-match")),
       ("Error", .plain (fun _ => .str "handled"))] "cs"
      (fun _ => .str "handled") rfl rfl⟩

/-- C4 counterexample: for the string subject `"Error"`, the ordinary
scan does match the rule named `Error` through the strict-equality
clause (the loop skips only `unknown`), and dispatch returns that
handler's result; the preemption step is not what produced it (the
subject is not an `Error` instance). -/
theorem claim_C4_counterexample :
    errorPreempt (.str "Error") [("Error", .plain (fun _ => .str "matched"))] = none ∧
      scan (.str "Error") [("Error", .plain (fun _ => .str "matched"))] =
        some (.ok (.str "matched")) ∧
      dispatch (.str "Error") [("Error", .plain (fun _ => .str "matched"))] "cs" =
        .ok (.str "matched") :=
  ⟨rfl, rfl, rfl⟩

/-- C4 (amended): rules named `unknown` are never ordinary dispatch
candidates — the scan behaves as if every `unknown` entry were removed —
but a rule named `Error` is scanned as an ordinary candidate like any
other key (its special treatment is only the pre-scan preemption for
error-instance subjects). -/
theorem claim_C4 :
    (∀ (value : JSVal) (handlers : List (String × Handler)),
      scan value handlers =
        scan value (handlers.filter (fun kv => kv.1 != "unknown"))) ∧
    (∀ (value : JSVal) (f : JSVal → JSVal) (rest : List (String × Handler)),
      scan value (("Error", .plain f) :: rest) =
        (if plainMatch value "Error" then some (.ok (f value)) else scan value rest)) := by
  constructor
  · intro value handlers
    induction handlers with
    | nil => rfl
    | cons kv rest ih =>
      obtain ⟨key, h⟩ := kv
      by_cases hk : key = "unknown"
      · subst hk
        simp [scan, List.filter_cons, ih]
      · cases h with
        | conditional cond exec =>
          simp only [scan, List.filter_cons, bne_iff_ne, ne_eq, hk, not_false_eq_true,
            if_true, beq_iff_eq, if_false]
          split <;> simp [ih]
        | plain f =>
          simp only [scan, List.filter_cons, bne_iff_ne, ne_eq, hk, not_false_eq_true,
            if_true, beq_iff_eq, if_false]
          split <;> simp [ih]
        | other v =>
          simp only [scan, List.filter_cons, bne_iff_ne, ne_eq, hk, not_false_eq_true,
            if_true, beq_iff_eq, if_false]
          exact ih
  · intro value f rest
    rfl

/-- Helper: a value the `Error` preemption produces is never the
no-match failure. -/
theorem errorPreempt_some_shape (value : JSVal) (handlers : List (String × Handler))
    (r : DResult) (h : errorPreempt value handlers = some r) :
    (∃ v, r = .ok v) ∨ r = .typeError := by
  unfold errorPreempt at h
  cases hL : List.lookup "Error" handlers with
  | none => simp [hL] at h
  | some hd =>
    simp only [hL] at h
    by_cases hc : (handlerTruthy hd && value.isErr) = true
    · rw [if_pos hc] at h
      have hr : r = callHandler hd value := by
        injection h with h
        exact h.symm
      cases hd with
      | plain f => exact Or.inl ⟨f value, by rw [hr]; rfl⟩
      | conditional cond exec => exact Or.inr (by rw [hr]; rfl)
      | other v => exact Or.inr (by rw [hr]; rfl)
    · rw [if_neg hc] at h
      exact absurd h (by simp)

/-- Helper: a value the ordinary scan produces is always a returned
handler result, never the no-match failure or a type error. -/
theorem scan_some_shape (value : JSVal) :
    ∀ (handlers : List (String × Handler)) (r : DResult),
      scan value handlers = some r → ∃ v, r = .ok v := by
  intro handlers
  induction handlers with
  | nil => intro r h; exact absurd h (by simp [scan])
  | cons kv rest ih =>
    obtain ⟨key, hd⟩ := kv
    intro r h
    by_cases hk : key = "unknown"
    · subst hk
      simp only [scan] at h
      exact ih r h
    · cases hd with
      | conditional cond exec =>
        simp only [scan, beq_iff_eq, hk, if_false] at h
        by_cases hc : condMet value cond = true
        · rw [if_pos hc] at h
          cases exec with
          | some f =>
            refine ⟨f value, ?_⟩
            injection h with h
            exact h.symm
          | none =>
            refine ⟨.bool true, ?_⟩
            injection h with h
            exact h.symm
        · rw [if_neg hc] at h
          exact ih r h
      | plain f =>
        simp only [scan, beq_iff_eq, hk, if_false] at h
        by_cases hm : plainMatch value key = true
        · rw [if_pos hm] at h
          refine ⟨f value, ?_⟩
          injection h with h
          exact h.symm
        · rw [if_neg hm] at h
          exact ih r h
      | other v =>
        simp only [scan, beq_iff_eq, hk, if_false] at h
        exact ih r h

/-- C5: when the preemption, the scan and the fallback all fail (no
`unknown` rule exists), dispatch fails with the no-match error carrying
exactly the non-`unknown` rule names, the subject's textual
representation and its runtime type name; and that error arises only
when preemption, scan and fallback are all exhausted. -/
theorem claim_C5 (value : JSVal) (handlers : List (String × Handler)) (cs : String) :
    (errorPreempt value handlers = none → scan value handlers = none →
      List.lookup "unknown" handlers = none →
      dispatch value handlers cs =
        .noMatch ⟨validKeys handlers, jsToString value, value.typeofName, cs⟩) ∧
    (∀ e, dispatch value handlers cs = .noMatch e →
      errorPreempt value handlers = none ∧ scan value handlers = none ∧
        ∀ f, List.lookup "unknown" handlers ≠ some (.plain f)) := by
  constructor
  · intro h1 h2 h3
    simp [dispatch, h1, h2, h3]
  · intro e he
    unfold dispatch at he
    cases hp : errorPreempt value handlers with
    | some r =>
      simp only [hp] at he
      rcases errorPreempt_some_shape value handlers r hp with ⟨v, hv⟩ | hv <;>
        rw [hv] at he <;> exact absurd he (by simp)
    | none =>
      simp only [hp] at he
      cases hs : scan value handlers with
      | some r =>
        simp only [hs] at he
        rcases scan_some_shape value handlers r hs with ⟨v, hv⟩
        rw [hv] at he
        exact absurd he (by simp)
      | none =>
        simp only [hs] at he
        refine ⟨rfl, rfl, ?_⟩
        intro f hf
        rw [hf] at he
        exact absurd he (by simp)

/-- C5 witness: dispatching `"nope"` against the single rule `known`
raises the no-match error with candidate list `["known"]`. -/
theorem claim_C5_witness :
    (errorPreempt (.str "nope") [("known", .plain (fun _ => .str "k"))] = none) ∧
      (scan (.str "nope") [("known", .plain (fun _ => .str "k"))] = none) ∧
      (List.lookup "unknown" [("known", Handler.plain (fun _ => JSVal.str "k"))] = none) ∧
      dispatch (.str "nope") [("known", .plain (fun _ => .str "k"))] "cs" =
        .noMatch ⟨validKeys [("known", .plain (fun _ => .str "k"))],
          jsToString (.str "nope"), JSVal.typeofName (.str "nope"), "cs"⟩ :=
  ⟨rfl, rfl, rfl,
    (claim_C5 (.str "nope") [("known", .plain (fun _ => .str "k"))] "cs").1 rfl rfl rfl⟩

/-- C6: when the preemption and the scan both fail but a callable
`unknown` rule exists, dispatch invokes it on the subject and returns
its result instead of raising. -/
theorem claim_C6 (value : JSVal) (handlers : List (String × Handler))
    (cs : String) (f : JSVal → JSVal)
    (h1 : errorPreempt value handlers = none)
    (h2 : scan value handlers = none)
    (h3 : List.lookup "unknown" handlers = some (.plain f)) :
    dispatch value handlers cs = .ok (f value) := by
  simp [dispatch, h1, h2, h3]

/-- C6 witness: the unmatched subject `"guest"` falls back to the
`unknown` handler. -/
theorem claim_C6_witness :
    (errorPreempt (.str "guest")
        [("admin", .plain (fun _ => .str "a")),
         ("unknown", .plain (fun v => v))] = none) ∧
      (scan (.str "guest")
        [("admin", .plain (fun _ => .str "a")),
         ("unknown", .plain (fun v => v))] = none) ∧
      (List.lookup "unknown"
        [("admin", Handler.plain (fun _ => JSVal.str "a")),
         ("unknown", Handler.plain (fun v => v))] = some (.plain (fun v => v))) ∧
      dispatch (.str "guest")
          [("admin", .plain (fun _ => .str "a")),
           ("unknown", .plain (fun v => v))] "cs" =
        .ok (.str "guest") :=
  ⟨rfl, rfl, rfl,
    claim_C6 (.str "guest")
      [("admin", .plain (fun _ => .str "a")),
       ("unknown", .plain (fun v => v))] "cs" (fun v => v) rfl rfl rfl⟩

/-- C7: the empty schema accepts every composite (object) subject, and
every schema rejects every non-composite subject (numbers, strings,
booleans, null); the evaluator is a total function, so no input raises. -/
theorem claim_C7 :
    (∀ fields : List (String × JSVal),
      evaluateDslCondition (.obj fields) (.obj []) = true) ∧
    (∀ (n : Int) (schema : JSVal), evaluateDslCondition (.num n) schema = false) ∧
    (∀ (s : String) (schema : JSVal), evaluateDslCondition (.str s) schema = false) ∧
    (∀ (b : Bool) (schema : JSVal), evaluateDslCondition (.bool b) schema = false) ∧
    (∀ schema : JSVal, evaluateDslCondition .null schema = false) :=
  ⟨fun _ => rfl, fun _ _ => rfl, fun _ _ => rfl, fun _ _ => rfl, fun _ => rfl⟩

/-- C8: against an object, the one-entry schema `{p: "undefined"}` holds
exactly when `p` is absent or bound to `undefined`; any other binding of
`p` (including `null`) makes it fail. -/
theorem claim_C8 (fields : List (String × JSVal)) (p : String) :
    (List.lookup p fields = none →
      evaluateDslCondition (.obj fields) (.obj [(p, .str "undefined")]) = true) ∧
    (List.lookup p fields = some .undefinedV →
      evaluateDslCondition (.obj fields) (.obj [(p, .str "undefined")]) = true) ∧
    (∀ v, List.lookup p fields = some v → v ≠ .undefinedV →
      evaluateDslCondition (.obj fields) (.obj [(p, .str "undefined")]) = false) := by
  have hbase : ∀ t : JSVal, evaluateDslCondition (.obj fields) (.obj [(p, t)]) =
      (checkSchemaEntry (.obj fields) p t && true) := fun _ => rfl
  refine ⟨?_, ?_, ?_⟩
  · intro h
    rw [hbase]
    simp only [checkSchemaEntry, JSVal.hasProp, h]
    rfl
  · intro h
    rw [hbase]
    simp only [checkSchemaEntry, JSVal.hasProp, JSVal.getProp, h]
    rfl
  · intro v h hv
    rw [hbase]
    simp only [checkSchemaEntry, JSVal.hasProp, JSVal.getProp, h]
    cases v with
    | undefinedV => exact absurd rfl hv
    | num n => rfl
    | str s => rfl
    | bool b => rfl
    | null => rfl
    | obj fs => rfl
    | arr xs => rfl
    | err m => rfl
    | func i => rfl

/-- C8 witness: a missing property and a property explicitly bound to
`undefined` both satisfy the `"undefined"` tag; a `null` binding does not. -/
theorem claim_C8_witness :
    (List.lookup "p" ([] : List (String × JSVal)) = none →
      evaluateDslCondition (.obj []) (.obj [("p", .str "undefined")]) = true) ∧
    ((List.lookup "p" [("p", JSVal.undefinedV)] = some JSVal.undefinedV →
      evaluateDslCondition (.obj [("p", .undefinedV)]) (.obj [("p", .str "undefined")]) = true) ∧
    (List.lookup "p" [("p", JSVal.null)] = some JSVal.null → JSVal.null ≠ JSVal.undefinedV →
      evaluateDslCondition (.obj [("p", .null)]) (.obj [("p", .str "undefined")]) = false)) :=
  ⟨(claim_C8 [] "p").1,
    (claim_C8 [("p", .undefinedV)] "p").2.1,
    fun h hv => (claim_C8 [("p", .null)] "p").2.2 JSVal.null h hv⟩

/-- C9: against an object, the one-entry schema `{p: true}` fails when
`p` is absent or bound to `null`/`undefined`, and holds for every other
binding of `p`. -/
theorem claim_C9 (fields : List (String × JSVal)) (p : String) :
    (List.lookup p fields = none →
      evaluateDslCondition (.obj fields) (.obj [(p, .bool true)]) = false) ∧
    (List.lookup p fields = some .null →
      evaluateDslCondition (.obj fields) (.obj [(p, .bool true)]) = false) ∧
    (List.lookup p fields = some .undefinedV →
      evaluateDslCondition (.obj fields) (.obj [(p, .bool true)]) = false) ∧
    (∀ v, List.lookup p fields = some v → v ≠ .null → v ≠ .undefinedV →
      evaluateDslCondition (.obj fields) (.obj [(p, .bool true)]) = true) := by
  have hbase : ∀ t : JSVal, evaluateDslCondition (.obj fields) (.obj [(p, t)]) =
      (checkSchemaEntry (.obj fields) p t && true) := fun _ => rfl
  refine ⟨?_, ?_, ?_, ?_⟩
  · intro h
    rw [hbase]
    simp only [checkSchemaEntry, JSVal.hasProp, h]
    rfl
  · intro h
    rw [hbase]
    simp only [checkSchemaEntry, JSVal.hasProp, JSVal.getProp, h]
    rfl
  · intro h
    rw [hbase]
    simp only [checkSchemaEntry, JSVal.hasProp, JSVal.getProp, h]
    rfl
  · intro v h hn hu
    rw [hbase]
    simp only [checkSchemaEntry, JSVal.hasProp, JSVal.getProp, h]
    cases v with
    | null => exact absurd rfl hn
    | undefinedV => exact absurd rfl hu
    | num n => rfl
    | str s => rfl
    | bool b => rfl
    | obj fs => rfl
    | arr xs => rfl
    | err m => rfl
    | func i => rfl

/-- C9 witness: an absent property and a `null` binding fail the `true`
tag; a numeric binding satisfies it. -/
theorem claim_C9_witness :
    (List.lookup "p" ([] : List (String × JSVal)) = none →
      evaluateDslCondition (.obj []) (.obj [("p", .bool true)]) = false) ∧
    ((List.lookup "p" [("p", JSVal.null)] = some JSVal.null →
      evaluateDslCondition (.obj [("p", .null)]) (.obj [("p", .bool true)]) = false) ∧
    (List.lookup "p" [("p", JSVal.num 7)] = some (JSVal.num 7) →
      JSVal.num 7 ≠ JSVal.null → JSVal.num 7 ≠ JSVal.undefinedV →
      evaluateDslCondition (.obj [("p", .num 7)]) (.obj [("p", .bool true)]) = true)) :=
  ⟨(claim_C9 [] "p").1,
    (claim_C9 [("p", .null)] "p").2.1,
    fun h hn hu => (claim_C9 [("p", .num 7)] "p").2.2.2 (JSVal.num 7) h hn hu⟩

/-- C10: a conditional handler whose condition is neither a boolean nor
a non-null, non-array object (a string, number, null, undefined value,
array, or function) never matches: no match is computed, its `exec` is
never invoked, and the scan proceeds with the next rule (the evaluation
is a total function, so nothing is raised). -/
theorem claim_C10 (value cond : JSVal) (key : String)
    (exec : Option (JSVal → JSVal)) (rest : List (String × Handler))
    (hk : key ≠ "unknown") (hc : otherCondition cond) :
    condMet value cond = false ∧
      scan value ((key, .conditional cond exec) :: rest) = scan value rest := by
  have hm : condMet value cond = false := by
    cases cond with
    | num n => rfl
    | str s => rfl
    | null => rfl
    | undefinedV => rfl
    | arr xs => rfl
    | func i => rfl
    | bool b => exact absurd rfl hc.1
    | obj fs =>
      rcases hc.2 rfl with h | h
      · exact absurd h (by simp)
      · exact absurd h (by simp [JSVal.isArr])
    | err m =>
      rcases hc.2 rfl with h | h
      · exact absurd h (by simp)
      · exact absurd h (by simp [JSVal.isArr])
  refine ⟨hm, ?_⟩
  simp [scan, hk, hm]

/-- C10 witness: a string-valued condition never fires its `exec`. -/
theorem claim_C10_witness :
    (("gate" : String) ≠ "unknown") ∧ otherCondition (.str "whoops") ∧
      (condMet (.num 1) (.str "whoops") = false ∧
        scan (.num 1)
            [("gate", .conditional (.str "whoops") (some (fun _ => .str "ran"))),
             ("1", .plain (fun _ => .str "next"))] =
          scan (.num 1) [("1", .plain (fun _ => .str "next"))]) :=
  ⟨by decide, ⟨by decide, by intro h; simp [JSVal.typeofName] at h⟩,
    claim_C10 (.num 1) (.str "whoops") "gate" (some (fun _ => .str "ran"))
      [("1", .plain (fun _ => .str "next"))] (by decide)
      ⟨by decide, by intro h; simp [JSVal.typeofName] at h⟩⟩

end LogicalAssert
